import Mathlib

/-!
Verification development for `find_donor.py`, a one-file political-donation
aggregation script.  The script reads pipe-delimited contribution records and
produces a running per-(recipient, zipcode) report and a final sorted
per-(recipient, date) report.

Shallow embedding conventions:
* Python strings are embedded as `List Char` (abbreviated `Str`);
* Python ints are `ℕ`/`ℤ`; Python floats are `ℚ` (all float computations the
  script performs on its integer amounts are exact in the ranges considered);
* functions that can raise an exception return `Option` or `Except Unit`;
* the mutable `shelve` stores are embedded as association lists.
-/

/-- Python strings are modelled as lists of characters. -/
abbrev Str := List Char

deriving instance DecidableEq for Except

/-- The integral part returned by Python `math.modf`: truncation toward zero,
so `modf(x) = (x - whole, whole)` with `whole = floor x` for `x ≥ 0` and
`whole = ceil x` for `x < 0`. -/
def modfWhole (x : ℚ) : ℤ := if 0 ≤ x then ⌊x⌋ else ⌈x⌉

/-- `rounder` (find_donor.py lines 193-207).  The Python source returns
`number` unchanged when `type(number) is int`; on integral inputs the general
`modf` branch below returns the same value, so one `ℚ → ℤ` function embeds
both branches. -/
def rounder (x : ℚ) : ℤ :=
  if x - (modfWhole x : ℚ) < 1 / 2 then modfWhole x else modfWhole x + 1

/-- `numpy.median` applied to the integer amount history (as in
`ZipRecord.median` / `DateRecord.median`): sort ascending, take the middle
element for odd length and the arithmetic mean of the two middle elements for
even length. -/
def npmedian (l : List ℕ) : ℚ :=
  let s := l.insertionSort (· ≤ ·)
  let n := l.length
  if n % 2 = 1 then ((s.getD (n / 2) 0 : ℕ) : ℚ)
  else (((s.getD (n / 2 - 1) 0 : ℕ) : ℚ) + ((s.getD (n / 2) 0 : ℕ) : ℚ)) / 2

/-- `ZipRecord` (find_donor.py lines 210-241): aggregate record for one
(recipient, zipcode) key; `amount` is the append-only normalized history. -/
structure ZipRecord where
  zipcode : Str
  ID : Str
  key : Str
  amount : List ℕ
deriving DecidableEq, Repr

/-- `ZipRecord.median` (lines 228-231): `rounder(median(self.amount))`. -/
def ZipRecord.median (r : ZipRecord) : ℤ := rounder (npmedian r.amount)

/-- `ZipRecord.count` (lines 233-236): `len(self.amount)`. -/
def ZipRecord.count (r : ZipRecord) : ℕ := r.amount.length

/-- `ZipRecord.total` (lines 238-241): `rounder(sum(self.amount))`. -/
def ZipRecord.total (r : ZipRecord) : ℤ := rounder ((r.amount.sum : ℕ) : ℚ)

/-- `DateRecord` (find_donor.py lines 244-275): aggregate record for one
(recipient, date) key. -/
structure DateRecord where
  ID : Str
  key : Str
  date : Str
  amount : List ℕ
deriving DecidableEq, Repr

/-- `DateRecord.median` (lines 262-265): `rounder(median(self.amount))`. -/
def DateRecord.median (r : DateRecord) : ℤ := rounder (npmedian r.amount)

/-- `DateRecord.count` (lines 267-270). -/
def DateRecord.count (r : DateRecord) : ℕ := r.amount.length

/-- `DateRecord.total` (lines 272-275). -/
def DateRecord.total (r : DateRecord) : ℤ := rounder ((r.amount.sum : ℕ) : ℚ)

/-- Modelled from the spec's words (§4.3): the standard statistical
round-half-up of a rational number to an integer, used to compare the code's
`rounder` against the specified rounding rule. -/
def roundHalfUp (q : ℚ) : ℤ := ⌊q + 1 / 2⌋

/-- Python `str.split(sep)` with a one-character separator: splits at every
occurrence of `sep`, keeping empty pieces (`"".split(s) = ['']`). -/
def pySplitChar (sep : Char) : List Char → List (List Char)
  | [] => [[]]
  | c :: rest =>
    match pySplitChar sep rest with
    | [] => [[]]
    | h :: t => if c = sep then [] :: h :: t else (c :: h) :: t

/-- `process_line` (find_donor.py lines 26-54): split on the delimiter and
validate; each `raise ValueError` becomes `none`.  The returned tuple is
`(CMTE_ID, ZIP_CODE[:5], TRANSACTION_DT, TRANSACTION_AMT)`. -/
def process_line (line : Str) : Option (Str × Str × Str × Str) :=
  let row := pySplitChar '|' line
  if row.length ≠ 21 then none
  else if row.getD 15 [] ≠ [] then none
  else if row.getD 0 [] = [] then none
  else if row.getD 14 [] = [] then none
  else some (row.getD 0 [], (row.getD 10 []).take 5, row.getD 13 [], row.getD 14 [])

/-- `check_zipcode` (lines 57-69). -/
def check_zipcode (zipcode : Str) : Bool :=
  if zipcode.length < 5 then false else true

/-- `read_line` (lines 88-106): yield the processed tuple of every line whose
`process_line` does not raise; any failing line is silently skipped. -/
def read_line (lines : List Str) : List (Str × Str × Str × Str) :=
  lines.filterMap process_line

/-- The character class `[^\d.]` of `string_to_int`'s regex: keep a character
iff it is a (decimal) digit or a dot. -/
def non_decimal_sub (s : Str) : Str :=
  s.filter (fun c => c.isDigit || c == '.')

/-- Decimal value of a digit character. -/
def dval (c : Char) : ℕ := c.toNat - 48

/-- Value of a string of decimal digits. -/
def natOfDigits (s : Str) : ℕ := s.foldl (fun a c => 10 * a + dval c) 0

/-- `string_to_int` (find_donor.py lines 109-120): delete every character
that is not a digit or a dot, then apply Python `int`.  `int` on a string of
digits and dots succeeds exactly when the string is nonempty and contains no
dot (otherwise it raises `ValueError`, embedded as `none`): in particular the
dot is *kept* by the regex, so amounts with a decimal fraction raise. -/
def string_to_int (s : Str) : Option ℕ :=
  let cleaned := non_decimal_sub s
  if cleaned ≠ [] ∧ cleaned.all (·.isDigit) then some (natOfDigits cleaned)
  else none

/-!
`check_date` (find_donor.py lines 72-85) calls
`datetime.strptime(date, '%m%d%Y')`.  CPython compiles the format to the
regex `(1[0-2]|0[1-9]|[1-9])(3[01]|[12]\d|0[1-9]|[1-9])(\d\d\d\d)`, matches
it at the start of the string (backtracking engine, alternatives tried left
to right, first complete match returned), then raises unless the match
consumed the whole string, and finally builds a `datetime`, which validates
the calendar date (month already 1-12 by the regex; day must not exceed the
month length; year must be at least 1).  The model below reproduces the
alternative order and the backtracking search exactly.
-/

/-- Try a list of alternatives in order; for each alternative that matches,
run the continuation, and backtrack to the next alternative on failure.  This
is the leftmost-alternative preference of a backtracking regex engine. -/
def firstAlt (k : ℕ → Str → Option α) :
    List (Str → Option (ℕ × Str)) → Str → Option α
  | [], _ => none
  | a :: as, s =>
    match a s with
    | some (v, r) =>
      match k v r with
      | some out => some out
      | none => firstAlt k as s
    | none => firstAlt k as s

/-- Month alternative `1[0-2]`. -/
def altM10to12 : Str → Option (ℕ × Str)
  | c1 :: c2 :: r =>
    if c1 = '1' ∧ '0' ≤ c2 ∧ c2 ≤ '2' then some (10 + dval c2, r) else none
  | _ => none

/-- Month alternative `0[1-9]`. -/
def altM01to09 : Str → Option (ℕ × Str)
  | c1 :: c2 :: r =>
    if c1 = '0' ∧ '1' ≤ c2 ∧ c2 ≤ '9' then some (dval c2, r) else none
  | _ => none

/-- Month alternative `[1-9]`. -/
def altM1to9 : Str → Option (ℕ × Str)
  | c1 :: r => if '1' ≤ c1 ∧ c1 ≤ '9' then some (dval c1, r) else none
  | _ => none

/-- Day alternative `3[01]`. -/
def altD30or31 : Str → Option (ℕ × Str)
  | c1 :: c2 :: r =>
    if c1 = '3' ∧ '0' ≤ c2 ∧ c2 ≤ '1' then some (30 + dval c2, r) else none
  | _ => none

/-- Day alternative `[12]\d`. -/
def altD10to29 : Str → Option (ℕ × Str)
  | c1 :: c2 :: r =>
    if ('1' ≤ c1 ∧ c1 ≤ '2') ∧ c2.isDigit then
      some (10 * dval c1 + dval c2, r)
    else none
  | _ => none

/-- Day alternative `0[1-9]`. -/
def altD01to09 : Str → Option (ℕ × Str)
  | c1 :: c2 :: r =>
    if c1 = '0' ∧ '1' ≤ c2 ∧ c2 ≤ '9' then some (dval c2, r) else none
  | _ => none

/-- Day alternative `[1-9]`. -/
def altD1to9 : Str → Option (ℕ × Str)
  | c1 :: r => if '1' ≤ c1 ∧ c1 ≤ '9' then some (dval c1, r) else none
  | _ => none

/-- Year pattern `\d\d\d\d` (exactly four digits). -/
def matchY4 : Str → Option (ℕ × Str)
  | a :: b :: c :: d :: r =>
    if a.isDigit ∧ b.isDigit ∧ c.isDigit ∧ d.isDigit then
      some (1000 * dval a + 100 * dval b + 10 * dval c + dval d, r)
    else none
  | _ => none

/-- The backtracking match of `(%m)(%d)(%Y)` at the start of `s`: the first
(in preference order) assignment of alternatives completing the whole
pattern, returning `(month, day, year, unconsumed remainder)`. -/
def strptimeSearch (s : Str) : Option (ℕ × ℕ × ℕ × Str) :=
  firstAlt (fun m r1 =>
    firstAlt (fun d r2 =>
      (matchY4 r2).map (fun yr => (m, d, yr.1, yr.2)))
      [altD30or31, altD10to29, altD01to09, altD1to9] r1)
    [altM10to12, altM01to09, altM1to9] s

/-- Gregorian leap year, as `calendar.isleap` / `datetime` use it. -/
def leapYear (y : ℕ) : Bool :=
  y % 4 == 0 && (y % 100 != 0 || y % 400 == 0)

/-- Length of a month, as validated by the `datetime` constructor. -/
def daysInMonth (y m : ℕ) : ℕ :=
  if m = 2 then (if leapYear y then 29 else 28)
  else if m = 4 ∨ m = 6 ∨ m = 9 ∨ m = 11 then 30
  else 31

/-- The validation performed by the `datetime(year, month, day)` constructor
(`MINYEAR = 1`, `MAXYEAR = 9999`). -/
def validYMD (y m d : ℕ) : Bool :=
  decide (1 ≤ y) && decide (y ≤ 9999) && decide (1 ≤ m) && decide (m ≤ 12) &&
    decide (1 ≤ d) && decide (d ≤ daysInMonth y m)

/-- `datetime.strptime(s, '%m%d%Y')` as a total function: `some (m, d, y)` on
success, `none` when it raises `ValueError` (no match, unconsumed trailing
data, or invalid calendar date). -/
def pyStrptime (s : Str) : Option (ℕ × ℕ × ℕ) :=
  match strptimeSearch s with
  | some (m, d, y, rest) =>
    if rest = [] ∧ validYMD y m d then some (m, d, y) else none
  | none => none

/-- `check_date` (find_donor.py lines 72-85). -/
def check_date (s : Str) : Bool := (pyStrptime s).isSome

/-- Two-digit zero-padded decimal rendering, as `strftime` `%m` / `%d`. -/
def pad2 (n : ℕ) : Str := [Nat.digitChar (n / 10 % 10), Nat.digitChar (n % 10)]

/-- Four-digit zero-padded decimal rendering; used to build canonical
`MMDDYYYY` date strings. -/
def pad4 (n : ℕ) : Str :=
  [Nat.digitChar (n / 1000 % 10), Nat.digitChar (n / 100 % 10),
   Nat.digitChar (n / 10 % 10), Nat.digitChar (n % 10)]

/-- `date_to_string` (find_donor.py lines 161-170): `strftime('%m%d%Y')`.
`%m` and `%d` are zero-padded to two digits; `%Y` renders the year unpadded
(glibc behaviour; identical to zero-padded for years ≥ 1000). -/
def date_to_string (mdy : ℕ × ℕ × ℕ) : Str :=
  pad2 mdy.1 ++ pad2 mdy.2.1 ++ Nat.toDigits 10 mdy.2.2

/-- `ZipRecord.__init__` (lines 213-223): unpack the tuple and normalize the
amount; a `string_to_int` failure propagates (`none`). -/
def ZipRecord.init (line : Str × Str × Str × Str) : Option ZipRecord :=
  (string_to_int line.2.2.2).map
    (fun n => ⟨line.2.1, line.1, line.1 ++ ' ' :: line.2.1, [n]⟩)

/-- `DateRecord.__init__` (lines 246-257). -/
def DateRecord.init (line : Str × Str × Str × Str) : Option DateRecord :=
  (string_to_int line.2.2.2).map
    (fun n => ⟨line.1, line.1 ++ ' ' :: line.2.2.1, line.2.2.1, [n]⟩)

/-- Dictionary read (`shelve[key]`), embedded on an association list. -/
def dictGet (store : List (Str × α)) (k : Str) : Option α :=
  match store with
  | [] => none
  | e :: rest => if e.1 = k then some e.2 else dictGet rest k

/-- Dictionary write (`shelve[key] = v`): replace in place, or append a new
key at the end. -/
def dictPut (store : List (Str × α)) (k : Str) (v : α) : List (Str × α) :=
  match store with
  | [] => [(k, v)]
  | e :: rest => if e.1 = k then (k, v) :: rest else e :: dictPut rest k v

/-- One line of the zip report, as formatted by `write_zipcode`
(lines 123-138): `ID|zipcode|median|count|total`. -/
structure ZipLine where
  ID : Str
  zipcode : Str
  median : ℤ
  count : ℕ
  total : ℤ
deriving DecidableEq, Repr

/-- The line `write_zipcode` appends for a record. -/
def write_zipcode (r : ZipRecord) : ZipLine :=
  ⟨r.ID, r.zipcode, r.median, r.count, r.total⟩

/-- One line of the date report: `ID|date|median|count|total`. -/
structure DateLine where
  ID : Str
  date : Str
  median : ℤ
  count : ℕ
  total : ℤ
deriving DecidableEq, Repr

/-- The line `write_date` emits for a record. -/
def dateLineOf (r : DateRecord) : DateLine :=
  ⟨r.ID, r.date, r.median, r.count, r.total⟩

/-- The `Shelve` object (lines 278-345): the two key→record stores plus the
flush counter.  `sync()` only affects durability, so in this embedding the
flush is the counter bookkeeping alone. -/
structure Shelve where
  zip_shelve : List (Str × ZipRecord)
  date_shelve : List (Str × DateRecord)
  count : ℕ
  cache_size : ℕ
deriving DecidableEq, Repr

/-- `Shelve.update_zip_record` (lines 299-313): gate on `check_zipcode`;
create-or-append under key `ID + ' ' + zipcode`; afterwards append exactly
one zip-report line for the new/updated record.  The append path re-runs
`string_to_int` on the raw amount (`record(line)`), which can raise. -/
def update_zip_record (sh : List (Str × ZipRecord)) (record : ZipRecord)
    (line : Str × Str × Str × Str) :
    Except Unit (List (Str × ZipRecord) × List ZipLine) :=
  if check_zipcode line.2.1 then
    match dictGet sh record.key with
    | none => .ok (dictPut sh record.key record, [write_zipcode record])
    | some r0 =>
      match string_to_int line.2.2.2 with
      | none => .error ()
      | some n =>
        let r1 : ZipRecord := ⟨r0.zipcode, r0.ID, r0.key, r0.amount ++ [n]⟩
        .ok (dictPut sh record.key r1, [write_zipcode r1])
  else .ok (sh, [])

/-- `Shelve.update_date_record` (lines 315-328): gate on `check_date`;
create-or-append under key `ID + ' ' + date`; no report write. -/
def update_date_record (sh : List (Str × DateRecord)) (record : DateRecord)
    (line : Str × Str × Str × Str) :
    Except Unit (List (Str × DateRecord)) :=
  if check_date line.2.2.1 then
    match dictGet sh record.key with
    | none => .ok (dictPut sh record.key record)
    | some r0 =>
      match string_to_int line.2.2.2 with
      | none => .error ()
      | some n => .ok (dictPut sh record.key ⟨r0.ID, r0.key, r0.date, r0.amount ++ [n]⟩)
  else .ok sh

/-- `Shelve.__call__` (lines 330-339): build both records (either constructor
may raise on a bad amount), run both grouping updates, count the update and
reset the counter at the flush cadence. -/
def Shelve.call (sh : Shelve) (line : Str × Str × Str × Str) :
    Except Unit (Shelve × List ZipLine) :=
  match ZipRecord.init line with
  | none => .error ()
  | some zip_record =>
    match DateRecord.init line with
    | none => .error ()
    | some date_record =>
      match update_zip_record sh.zip_shelve zip_record line with
      | .error e => .error e
      | .ok (zs, out) =>
        match update_date_record sh.date_shelve date_record line with
        | .error e => .error e
        | .ok ds =>
          if sh.count + 1 = sh.cache_size then .ok (⟨zs, ds, 0, sh.cache_size⟩, out)
          else .ok (⟨zs, ds, sh.count + 1, sh.cache_size⟩, out)

/-- The per-key step of `sort_key_by_date` (lines 182-185):
`id, date = key.split(' ')` — a `ValueError` unless the split yields exactly
two pieces — followed by `datetime.strptime(date, '%m%d%Y')`. -/
def splitKey (k : Str) : Except Unit (Str × (ℕ × ℕ × ℕ)) :=
  match pySplitChar ' ' k with
  | [i, d] =>
    match pyStrptime d with
    | some mdy => .ok (i, mdy)
    | none => .error ()
  | _ => .error ()

/-- Sequential effectful map: stop at the first raised exception, exactly as
a Python `for` loop does. -/
def eMapM (f : α → Except Unit β) : List α → Except Unit (List β)
  | [] => .ok []
  | a :: as =>
    match f a with
    | .error e => .error e
    | .ok b =>
      match eMapM f as with
      | .error e => .error e
      | .ok bs => .ok (b :: bs)

/-- Chronological encoding of a parsed `(month, day, year)`: `datetime`
comparison is lexicographic on `(year, month, day)`. -/
def dateVal (mdy : ℕ × ℕ × ℕ) : ℕ := mdy.2.2 * 10000 + mdy.1 * 100 + mdy.2.1

/-- The order `sorted` uses on the `[id, datetime]` pairs of
`sort_key_by_date`: id first (lexicographic string order), then the date
(chronological). -/
def keyPairLE (a b : Str × (ℕ × ℕ × ℕ)) : Prop :=
  a.1 < b.1 ∨ (a.1 = b.1 ∧ dateVal a.2 ≤ dateVal b.2)

instance : DecidableRel keyPairLE := fun a b => by
  unfold keyPairLE
  infer_instance

instance : IsTrans (Str × (ℕ × ℕ × ℕ)) keyPairLE := by
  constructor
  intro a b c hab hbc
  rcases hab with h1 | ⟨e1, le1⟩
  · rcases hbc with h2 | ⟨e2, le2⟩
    · exact Or.inl (h1.trans h2)
    · exact Or.inl (by rw [← e2]; exact h1)
  · rcases hbc with h2 | ⟨e2, le2⟩
    · exact Or.inl (by rw [e1]; exact h2)
    · exact Or.inr ⟨e1.trans e2, le1.trans le2⟩

instance : IsTotal (Str × (ℕ × ℕ × ℕ)) keyPairLE := by
  constructor
  intro a b
  rcases lt_trichotomy a.1 b.1 with h | h | h
  · exact Or.inl (Or.inl h)
  · rcases le_total (dateVal a.2) (dateVal b.2) with hle | hle
    · exact Or.inl (Or.inr ⟨h, hle⟩)
    · exact Or.inr (Or.inr ⟨h.symm, hle⟩)
  · exact Or.inr (Or.inl h)

/-- Rebuild a composite key from an `[id, datetime]` pair, as the last lines
of `sort_key_by_date` do: `id + ' ' + date_to_string(datetime)`. -/
def reconKey (p : Str × (ℕ × ℕ × ℕ)) : Str := p.1 ++ ' ' :: date_to_string p.2

/-- `sort_key_by_date` (lines 173-190): split and parse every key, sort by
(id, parsed date), then rebuild each key as `id + ' ' + strftime(date)`. -/
def sort_key_by_date (keys : List Str) : Except Unit (List Str) :=
  match eMapM splitKey keys with
  | .error e => .error e
  | .ok pairs => .ok ((List.insertionSort keyPairLE pairs).map reconKey)

/-- The body of `write_date`'s loop for one rebuilt key: fetch the record
back from the store (`KeyError` if absent) and emit its line. -/
def lookupLine (store : List (Str × DateRecord)) (k : Str) : Except Unit DateLine :=
  match dictGet store k with
  | none => .error ()
  | some r => .ok (dateLineOf r)

/-- `write_date` (lines 141-158): one line per sorted key, fetching each
record back from the store by the rebuilt key (a missing key raises). -/
def write_date (store : List (Str × DateRecord)) : Except Unit (List DateLine) :=
  match sort_key_by_date (store.map (·.1)) with
  | .error e => .error e
  | .ok sorted_keys => eMapM (lookupLine store) sorted_keys

/-- The `[id, parsed datetime]` pair `sort_key_by_date` builds for a store
entry (proof-side abbreviation; the `getD` default is irrelevant on entries
whose date parses). -/
def entryPair (e : Str × DateRecord) : Str × (ℕ × ℕ × ℕ) :=
  (e.2.ID, (pyStrptime e.2.date).getD (1, 1, 1))

/-- The report line `write_date` emits for a rebuilt key (proof-side
abbreviation; the default is irrelevant when the lookup succeeds). -/
def lineAt (store : List (Str × DateRecord)) (p : Str × (ℕ × ℕ × ℕ)) : DateLine :=
  match dictGet store (reconKey p) with
  | some r => dateLineOf r
  | none => ⟨[], [], 0, 0, 0⟩

/-- Chronological value of a date-report line's date field (`0` if the date
does not parse); used to state the sortedness of the date report. -/
def dlVal (l : DateLine) : ℕ := (pyStrptime l.date).elim 0 dateVal

/-- The order the spec asserts on date-report lines: ascending primarily by
recipient id (lexicographic string order), secondarily by date
(chronological). -/
def dateLineLE (a b : DateLine) : Prop :=
  a.ID < b.ID ∨ (a.ID = b.ID ∧ dlVal a ≤ dlVal b)

/-- Observable outcome of one run of the script: the zip-report lines that
were appended, the date report if it was written, and whether the process
died with an uncaught exception. -/
structure RunResult where
  zipLines : List ZipLine
  dateReport : Option (List DateLine)
  errored : Bool
deriving DecidableEq, Repr

/-- The `Shelve(...)` built by `__main__` (cache_size 1000, empty stores). -/
def initShelve : Shelve := ⟨[], [], 0, 1000⟩

/-- The main loop `for line in read_line(...): my_shelve(line)`: an uncaught
exception aborts the run (no further zip lines, no final state). -/
def runLoop (sh : Shelve) :
    List (Str × Str × Str × Str) → List ZipLine × Option Shelve
  | [] => ([], some sh)
  | t :: ts =>
    match Shelve.call sh t with
    | .error _ => ([], none)
    | .ok (sh', out) =>
      let r := runLoop sh' ts
      (out ++ r.1, r.2)

/-- `__main__` (lines 348-367): fail before doing anything if either output
path exists; otherwise process every line, then write the date report once. -/
def runMain (zipExists dateExists : Bool) (lines : List Str) : RunResult :=
  if zipExists || dateExists then ⟨[], none, true⟩
  else
    let r := runLoop initShelve (read_line lines)
    match r.2 with
    | none => ⟨r.1, none, true⟩
    | some sh =>
      match write_date sh.date_shelve with
      | .error _ => ⟨r.1, none, true⟩
      | .ok rep => ⟨r.1, some rep, false⟩

/- ------------------------------------------------------------------ -/
/- Theorems                                                           -/
/- ------------------------------------------------------------------ -/

theorem modfWhole_intCast (n : ℤ) : modfWhole (n : ℚ) = n := by
  unfold modfWhole
  split <;> simp

theorem rounder_intCast (n : ℤ) : rounder (n : ℚ) = n := by
  unfold rounder
  rw [modfWhole_intCast]
  norm_num

theorem rounder_natCast (n : ℕ) : rounder ((n : ℕ) : ℚ) = n := by
  have h := rounder_intCast (n : ℤ)
  push_cast at h
  exact_mod_cast h

theorem rounder_nonneg (q : ℚ) (h : 0 ≤ q) : rounder q = ⌊q + 1 / 2⌋ := by
  unfold rounder modfWhole
  rw [if_pos h]
  by_cases hf : q - ((⌊q⌋ : ℤ) : ℚ) < 1 / 2
  · rw [if_pos hf]
    symm
    rw [Int.floor_eq_iff]
    constructor
    · linarith [Int.floor_le q]
    · linarith
  · rw [if_neg hf]
    symm
    rw [Int.floor_eq_iff]
    push_cast
    constructor
    · linarith
    · linarith [Int.lt_floor_add_one q]

theorem rounder_nonpos (q : ℚ) (h : q ≤ 0) : rounder q = ⌈q⌉ := by
  rcases eq_or_lt_of_le h with heq | hlt
  · subst heq
    unfold rounder modfWhole
    norm_num
  · unfold rounder modfWhole
    rw [if_neg (not_le.mpr hlt)]
    have hle : q - ((⌈q⌉ : ℤ) : ℚ) < 1 / 2 := by
      have := Int.le_ceil q
      linarith
    rw [if_pos hle]

theorem rounder_ceil_of_half_le (q : ℚ) (h0 : 0 ≤ q)
    (h : 1 / 2 ≤ q - ((⌊q⌋ : ℤ) : ℚ)) : rounder q = ⌈q⌉ := by
  unfold rounder modfWhole
  rw [if_pos h0, if_neg (by linarith)]
  have h1 : ⌈q⌉ ≤ ⌊q⌋ + 1 := Int.ceil_le_floor_add_one q
  have h2 : ⌊q⌋ < ⌈q⌉ := by
    rw [Int.lt_ceil]
    linarith
  omega

theorem median_formula (l : List ℕ) :
    (l.length % 2 = 1 →
      rounder (npmedian l) =
        (((l.insertionSort (· ≤ ·)).getD (l.length / 2) 0 : ℕ) : ℤ)) ∧
    (l.length % 2 = 0 →
      rounder (npmedian l) =
        roundHalfUp (((((l.insertionSort (· ≤ ·)).getD (l.length / 2 - 1) 0 : ℕ) : ℚ) +
          (((l.insertionSort (· ≤ ·)).getD (l.length / 2) 0 : ℕ) : ℚ)) / 2)) := by
  constructor
  · intro hodd
    unfold npmedian
    rw [if_pos hodd]
    exact rounder_natCast _
  · intro heven
    unfold npmedian
    rw [if_neg (by omega)]
    rw [rounder_nonneg _ (by positivity)]
    rfl

/-- C1: for every aggregate record (either variant) with a non-empty amounts
history, the derived `median` is the middle value of the sorted history for
odd length, and the round-half-up of the arithmetic mean of the two middle
values of the sorted history for even length. -/
theorem C1_median_is_rounded_statistical_median :
    (∀ r : ZipRecord, r.amount ≠ [] →
      (r.amount.length % 2 = 1 →
        r.median = (((r.amount.insertionSort (· ≤ ·)).getD (r.amount.length / 2) 0 : ℕ) : ℤ)) ∧
      (r.amount.length % 2 = 0 →
        r.median = roundHalfUp (((((r.amount.insertionSort (· ≤ ·)).getD (r.amount.length / 2 - 1) 0 : ℕ) : ℚ) +
          (((r.amount.insertionSort (· ≤ ·)).getD (r.amount.length / 2) 0 : ℕ) : ℚ)) / 2))) ∧
    (∀ r : DateRecord, r.amount ≠ [] →
      (r.amount.length % 2 = 1 →
        r.median = (((r.amount.insertionSort (· ≤ ·)).getD (r.amount.length / 2) 0 : ℕ) : ℤ)) ∧
      (r.amount.length % 2 = 0 →
        r.median = roundHalfUp (((((r.amount.insertionSort (· ≤ ·)).getD (r.amount.length / 2 - 1) 0 : ℕ) : ℚ) +
          (((r.amount.insertionSort (· ≤ ·)).getD (r.amount.length / 2) 0 : ℕ) : ℚ)) / 2))) := by
  constructor
  · intro r _
    exact median_formula r.amount
  · intro r _
    exact median_formula r.amount

theorem C1_median_is_rounded_statistical_median_witness :
    ZipRecord.median ⟨"90001".data, "C1".data, "C1 90001".data, [100, 250, 100]⟩ = 100 ∧
    DateRecord.median ⟨"C1".data, "C1 01152021".data, "01152021".data, [3, 4]⟩ = 4 := by
  constructor
  · have h := (C1_median_is_rounded_statistical_median.1
      ⟨"90001".data, "C1".data, "C1 90001".data, [100, 250, 100]⟩ (by simp)).1 (by rfl)
    rw [h]
    rfl
  · have h := (C1_median_is_rounded_statistical_median.2
      ⟨"C1".data, "C1 01152021".data, "01152021".data, [3, 4]⟩ (by simp)).2 (by rfl)
    rw [h]
    norm_num [roundHalfUp, List.insertionSort, List.orderedInsert]

/-- C4 counterexample: at `x = -8/5` the fractional part `x - ⌊x⌋ = 2/5` is
strictly below `1/2`, so the claimed rule demands `rounder x = ⌊x⌋ = -2`, but
the code (whose `modf` truncates toward zero) returns `-1`. -/
theorem C4_rounder_counterexample :
    ((-8 : ℚ) / 5) - ((⌊(-8 : ℚ) / 5⌋ : ℤ) : ℚ) < 1 / 2 ∧
    ⌊(-8 : ℚ) / 5⌋ = -2 ∧
    rounder ((-8 : ℚ) / 5) = -1 := by
  have hfl : ⌊(-8 : ℚ) / 5⌋ = -2 := by
    rw [Int.floor_eq_iff]
    norm_num
  have hcl : ⌈(-8 : ℚ) / 5⌉ = -1 := by
    rw [Int.ceil_eq_iff]
    norm_num
  refine ⟨?_, hfl, ?_⟩
  · rw [hfl]
    norm_num
  · rw [rounder_nonpos _ (by norm_num), hcl]

/-- C4 amended: the floor/ceil rule of the claim holds for all nonnegative
inputs (fractional part `< 1/2` floors, otherwise ceils; integers pass
through), and `rounder 2.5 = 3`, `rounder 2.4 = 2`; but for nonpositive
inputs `rounder` truncates toward zero, i.e. always returns the ceiling
(`rounder (-0.5) = 0`), instead of following the floor/ceil rule. -/
theorem C4_rounder_amended :
    (∀ x : ℚ, 0 ≤ x →
      (x - ((⌊x⌋ : ℤ) : ℚ) < 1 / 2 → rounder x = ⌊x⌋) ∧
      (1 / 2 ≤ x - ((⌊x⌋ : ℤ) : ℚ) → rounder x = ⌈x⌉)) ∧
    (∀ x : ℚ, x ≤ 0 → rounder x = ⌈x⌉) ∧
    (∀ n : ℤ, rounder ((n : ℤ) : ℚ) = n) ∧
    rounder ((5 : ℚ) / 2) = 3 ∧ rounder ((12 : ℚ) / 5) = 2 ∧
    rounder ((-1 : ℚ) / 2) = 0 := by
  refine ⟨?_, rounder_nonpos, rounder_intCast, ?_, ?_, ?_⟩
  · intro x hx
    constructor
    · intro hf
      unfold rounder modfWhole
      rw [if_pos hx]
      rw [if_pos hf]
    · intro hf
      exact rounder_ceil_of_half_le x hx hf
  · rw [rounder_nonneg _ (by norm_num)]
    rw [Int.floor_eq_iff]
    norm_num
  · rw [rounder_nonneg _ (by norm_num)]
    rw [Int.floor_eq_iff]
    norm_num
  · rw [rounder_nonpos _ (by norm_num)]
    rw [Int.ceil_eq_iff]
    norm_num

theorem C4_rounder_amended_witness :
    rounder ((7 : ℚ) / 2) = ⌈(7 : ℚ) / 2⌉ ∧ rounder ((-3 : ℚ) / 2) = ⌈(-3 : ℚ) / 2⌉ ∧
    rounder ((4 : ℤ) : ℚ) = 4 :=
  ⟨(C4_rounder_amended.1 ((7 : ℚ) / 2) (by norm_num)).2 (by
      rw [show ⌊(7 : ℚ) / 2⌋ = 3 from by
        rw [Int.floor_eq_iff]
        norm_num]
      norm_num),
   C4_rounder_amended.2.1 ((-3 : ℚ) / 2) (by norm_num),
   C4_rounder_amended.2.2.1 4⟩

theorem non_decimal_sub_mem {s : Str} {c : Char} (hc : c ∈ non_decimal_sub s) :
    c.isDigit = true ∨ c = '.' := by
  have h := (List.mem_filter.mp hc).2
  rcases Bool.or_eq_true _ _ |>.mp h with h1 | h1
  · exact Or.inl h1
  · exact Or.inr (by simpa using h1)

/-- C2 counterexample: the cleaned form of `"12.99"` keeps the decimal point,
and Python `int` then raises `ValueError`; the amount does not normalize to
`12` (by contrast an all-digit remainder such as `"1,299"` does convert). -/
theorem C2_truncation_counterexample :
    string_to_int "12.99".data = none ∧ string_to_int "1,299".data = some 1299 := by
  constructor
  · decide
  · decide

/-- C2 amended: the normalizer strips every character that is neither a digit
nor a decimal point, but it does not truncate: if the remainder is empty or
still contains a decimal point the conversion raises (`none`); only an
all-digit nonempty remainder converts, to its decimal integer value. -/
theorem C2_amount_normalizer_amended :
    ∀ s : Str,
      (non_decimal_sub s = [] ∨ '.' ∈ non_decimal_sub s → string_to_int s = none) ∧
      (non_decimal_sub s ≠ [] ∧ '.' ∉ non_decimal_sub s →
        string_to_int s = some (natOfDigits (non_decimal_sub s))) := by
  intro s
  constructor
  · rintro (he | hdot)
    · simp [string_to_int, he]
    · have hall : ¬ (non_decimal_sub s).all (·.isDigit) = true := by
        simp only [List.all_eq_true, not_forall]
        exact ⟨'.', hdot, by decide⟩
      simp [string_to_int, hall]
  · rintro ⟨hne, hdot⟩
    have hall : (non_decimal_sub s).all (·.isDigit) = true := by
      rw [List.all_eq_true]
      intro c hc
      rcases non_decimal_sub_mem hc with h | h
      · simpa using h
      · exact absurd (h ▸ hc) hdot
    simp [string_to_int, hne, hall]

theorem C2_amount_normalizer_amended_witness :
    string_to_int "$3.50".data = none ∧ string_to_int "$1,234xyz".data = some 1234 :=
  ⟨(C2_amount_normalizer_amended "$3.50".data).1 (Or.inr (by decide)),
   by
    have h := (C2_amount_normalizer_amended "$1,234xyz".data).2 ⟨by decide, by decide⟩
    rw [h]
    decide⟩

/-- C6: the parser/validator succeeds exactly when the split yields 21
fields, field 15 is empty, field 0 is non-empty and field 14 is non-empty,
in which case it returns `(field 0, field 10 truncated to five characters,
field 13, field 14)`; a failing line is skipped by `read_line` with no
partial record surfaced. -/
theorem C6_parser_validator :
    (∀ (line : Str) (t : Str × Str × Str × Str),
      process_line line = some t ↔
        ((pySplitChar '|' line).length = 21 ∧
         (pySplitChar '|' line).getD 15 [] = [] ∧
         (pySplitChar '|' line).getD 0 [] ≠ [] ∧
         (pySplitChar '|' line).getD 14 [] ≠ [] ∧
         t = ((pySplitChar '|' line).getD 0 [],
              ((pySplitChar '|' line).getD 10 []).take 5,
              (pySplitChar '|' line).getD 13 [],
              (pySplitChar '|' line).getD 14 []))) ∧
    (∀ (pre post : List Str) (line : Str), process_line line = none →
      read_line (pre ++ line :: post) = read_line (pre ++ post)) := by
  constructor
  · intro line t
    unfold process_line
    dsimp only
    split_ifs with h1 h2 h3 h4
    · constructor
      · intro h
        simp at h
      · rintro ⟨hl, -⟩
        exact absurd hl h1
    · constructor
      · intro h
        simp at h
      · rintro ⟨-, hg, -⟩
        exact absurd hg h2
    · constructor
      · intro h
        simp at h
      · rintro ⟨-, -, hg, -⟩
        exact absurd h3 hg
    · constructor
      · intro h
        simp at h
      · rintro ⟨-, -, -, hg, -⟩
        exact absurd h4 hg
    · push_neg at h1 h2
      constructor
      · intro h
        injection h with h
        exact ⟨h1, h2, h3, h4, h.symm⟩
      · rintro ⟨-, -, -, -, ht⟩
        rw [ht]
  · intro pre post line h
    simp [read_line, List.filterMap_append, List.filterMap_cons, h]

theorem C6_parser_validator_witness :
    process_line "C1|x|x|x|x|x|x|x|x|x|900011234|x|x|01152021|100||x|x|x|x|x".data =
      some ("C1".data, "90001".data, "01152021".data, "100".data) ∧
    read_line ["onefield".data,
      "C1|x|x|x|x|x|x|x|x|x|900011234|x|x|01152021|100||x|x|x|x|x".data] =
      read_line ["C1|x|x|x|x|x|x|x|x|x|900011234|x|x|01152021|100||x|x|x|x|x".data] :=
  ⟨(C6_parser_validator.1 _ _).mpr (by decide),
   C6_parser_validator.2 []
     ["C1|x|x|x|x|x|x|x|x|x|900011234|x|x|01152021|100||x|x|x|x|x".data]
     "onefield".data (by decide)⟩

/-- C3 counterexample: the first line below passes the parser/validator but
its amount `"1.5"` cannot be normalized; the claim says the line is skipped
and processing continues, but the run aborts with an uncaught `ValueError`:
the second line — which passes every stage — is never processed and
contributes to no report. -/
theorem C3_invalid_amount_counterexample :
    runMain false false
      ["C1|x|x|x|x|x|x|x|x|x|900011234|x|x|01152021|1.5||x|x|x|x|x".data,
       "C1|x|x|x|x|x|x|x|x|x|900011234|x|x|01152021|100||x|x|x|x|x".data] =
      ⟨[], none, true⟩ ∧
    process_line "C1|x|x|x|x|x|x|x|x|x|900011234|x|x|01152021|1.5||x|x|x|x|x".data =
      some ("C1".data, "90001".data, "01152021".data, "1.5".data) ∧
    string_to_int "1.5".data = none ∧
    (∃ t, process_line
        "C1|x|x|x|x|x|x|x|x|x|900011234|x|x|01152021|100||x|x|x|x|x".data = some t ∧
      check_zipcode t.2.1 = true ∧ check_date t.2.2.1 = true ∧
      string_to_int t.2.2.2 = some 100) := by
  refine ⟨by decide, by decide, by decide, ⟨("C1".data, "90001".data, "01152021".data, "100".data), by decide, by decide, by decide, by decide⟩⟩

/-- C3 amended: a validated line whose amount cannot be normalized is *not*
recovered locally: the `ValueError` raised while constructing the records is
uncaught, so the whole run terminates at that line — later lines are not
processed and no date report is written. -/
theorem C3_invalid_amount_amended :
    (∀ (sh : Shelve) (t : Str × Str × Str × Str),
      string_to_int t.2.2.2 = none → Shelve.call sh t = .error ()) ∧
    (∀ (sh : Shelve) (t : Str × Str × Str × Str) (ts : List (Str × Str × Str × Str)),
      string_to_int t.2.2.2 = none → runLoop sh (t :: ts) = ([], none)) ∧
    (∀ (lines : List Str) (t : Str × Str × Str × Str) (ts : List (Str × Str × Str × Str)),
      read_line lines = t :: ts → string_to_int t.2.2.2 = none →
      runMain false false lines = ⟨[], none, true⟩) := by
  have hcall : ∀ (sh : Shelve) (t : Str × Str × Str × Str),
      string_to_int t.2.2.2 = none → Shelve.call sh t = .error () := by
    intro sh t h
    simp [Shelve.call, ZipRecord.init, h]
  have hloop : ∀ (sh : Shelve) (t : Str × Str × Str × Str)
      (ts : List (Str × Str × Str × Str)),
      string_to_int t.2.2.2 = none → runLoop sh (t :: ts) = ([], none) := by
    intro sh t ts h
    simp [runLoop, hcall sh t h]
  refine ⟨hcall, hloop, ?_⟩
  intro lines t ts hread h
  simp [runMain, hread, hloop initShelve t ts h]

theorem C3_invalid_amount_amended_witness :
    Shelve.call initShelve ("C1".data, "90001".data, "01152021".data, "ab.c".data) =
      .error () ∧
    runLoop initShelve [("C1".data, "90001".data, "01152021".data, "ab.c".data)] =
      ([], none) :=
  ⟨C3_invalid_amount_amended.1 initShelve _ (by decide),
   C3_invalid_amount_amended.2.1 initShelve _ [] (by decide)⟩

/-- C9: if either output path already exists, the run fails before any input
processing: no zip line is appended, no date report is written, and the
failure (`OSError`) is fatal. -/
theorem C9_preexisting_output_fatal :
    ∀ (zipExists dateExists : Bool) (lines : List Str),
      zipExists = true ∨ dateExists = true →
      runMain zipExists dateExists lines = ⟨[], none, true⟩ := by
  intro z d lines h
  unfold runMain
  rcases h with h | h <;> subst h <;> simp

theorem C9_preexisting_output_fatal_witness :
    runMain true false
      ["C1|x|x|x|x|x|x|x|x|x|900011234|x|x|01152021|100||x|x|x|x|x".data] =
      ⟨[], none, true⟩ ∧
    runMain false true [] = ⟨[], none, true⟩ :=
  ⟨C9_preexisting_output_fatal true false _ (Or.inl rfl),
   C9_preexisting_output_fatal false true [] (Or.inr rfl)⟩

theorem digitChar_isDigit {n : ℕ} (h : n < 10) : (Nat.digitChar n).isDigit = true := by
  interval_cases n <;> decide

theorem dval_digitChar {n : ℕ} (h : n < 10) : dval (Nat.digitChar n) = n := by
  interval_cases n <;> decide

theorem matchY4_pad4 (y : ℕ) (hy : y ≤ 9999) : matchY4 (pad4 y) = some (y, []) := by
  have h1 : y / 1000 % 10 < 10 := Nat.mod_lt _ (by norm_num)
  have h2 : y / 100 % 10 < 10 := Nat.mod_lt _ (by norm_num)
  have h3 : y / 10 % 10 < 10 := Nat.mod_lt _ (by norm_num)
  have h4 : y % 10 < 10 := Nat.mod_lt _ (by norm_num)
  simp only [pad4, matchY4]
  rw [if_pos ⟨digitChar_isDigit h1, digitChar_isDigit h2,
    digitChar_isDigit h3, digitChar_isDigit h4⟩]
  rw [dval_digitChar h1, dval_digitChar h2, dval_digitChar h3, dval_digitChar h4]
  have hval : 1000 * (y / 1000 % 10) + 100 * (y / 100 % 10) + 10 * (y / 10 % 10) + y % 10 = y := by
    omega
  rw [hval]

theorem dayYearStage (m d y : ℕ) (hd1 : 1 ≤ d) (hd2 : d ≤ 31) (hy : y ≤ 9999) :
    firstAlt (fun dd r2 => (matchY4 r2).map (fun yr => (m, dd, yr.1, yr.2)))
      [altD30or31, altD10to29, altD01to09, altD1to9] (pad2 d ++ pad4 y) =
      some (m, d, y, []) := by
  interval_cases d <;>
    simp [pad2, Nat.digitChar, firstAlt, altD30or31, altD10to29, altD01to09, altD1to9,
      dval, matchY4_pad4 y hy]

theorem monthStage (m : ℕ) (hm1 : 1 ≤ m) (hm2 : m ≤ 12) (R : Str)
    (k : ℕ → Str → Option (ℕ × ℕ × ℕ × Str)) (out : ℕ × ℕ × ℕ × Str)
    (hk : k m R = some out) :
    firstAlt k [altM10to12, altM01to09, altM1to9] (pad2 m ++ R) = some out := by
  interval_cases m <;>
    simp [pad2, Nat.digitChar, firstAlt, altM10to12, altM01to09, altM1to9, dval, hk]

theorem strptimeSearch_pad (m d y : ℕ) (hm1 : 1 ≤ m) (hm2 : m ≤ 12)
    (hd1 : 1 ≤ d) (hd2 : d ≤ 31) (hy : y ≤ 9999) :
    strptimeSearch (pad2 m ++ pad2 d ++ pad4 y) = some (m, d, y, []) := by
  unfold strptimeSearch
  rw [List.append_assoc]
  exact monthStage m hm1 hm2 (pad2 d ++ pad4 y) _ _ (dayYearStage m d y hd1 hd2 hy)

theorem daysInMonth_le31 (y m : ℕ) : daysInMonth y m ≤ 31 := by
  unfold daysInMonth
  split_ifs <;> norm_num

theorem check_date_canonical (m d y : ℕ) (hm1 : 1 ≤ m) (hm2 : m ≤ 12)
    (hd1 : 1 ≤ d) (hdm : d ≤ daysInMonth y m) (hy1 : 1 ≤ y) (hy2 : y ≤ 9999) :
    check_date (pad2 m ++ pad2 d ++ pad4 y) = true := by
  have hd31 : d ≤ 31 := hdm.trans (daysInMonth_le31 y m)
  unfold check_date pyStrptime
  rw [strptimeSearch_pad m d y hm1 hm2 hd1 hd31 hy2]
  simp [validYMD, hm1, hm2, hd1, hdm, hy1, hy2]

/-- C7 counterexample: `"112021"` is not of the fixed two-digit-month,
two-digit-day, four-digit-year form (it has six characters, not eight), yet
`check_date` accepts it (strptime also matches one-digit months/days:
`1/1/2021`), so the date-grouping update is performed rather than skipped. -/
theorem C7_date_gate_counterexample :
    check_date "112021".data = true ∧
    (∀ m d y : ℕ, "112021".data ≠ pad2 m ++ pad2 d ++ pad4 y) ∧
    (∀ r : DateRecord,
      update_date_record [] r ("C1".data, "90001".data, "112021".data, "100".data) =
        .ok [(r.key, r)]) := by
  refine ⟨by decide, ?_, ?_⟩
  · intro m d y h
    have hl : ("112021".data).length = (pad2 m ++ pad2 d ++ pad4 y).length :=
      congrArg List.length h
    rw [show ("112021".data).length = 6 from by decide] at hl
    simp [pad2, pad4] at hl
  · intro r
    unfold update_date_record
    rw [if_pos (by decide)]
    simp [dictGet, dictPut, List.find?]

/-- C7 amended: the date-grouping update is gated exactly by
`strptime('%m%d%Y')` parsing — when the parse fails the update (and only it)
is skipped, and every canonical `MMDDYYYY` string denoting a valid calendar
date parses — but the accepted set is strictly larger than the canonical
eight-character form (e.g. `"112021"`, see the counterexample). -/
theorem C7_date_gate_amended :
    (∀ (sh : List (Str × DateRecord)) (r : DateRecord) (line : Str × Str × Str × Str),
      check_date line.2.2.1 = false → update_date_record sh r line = .ok sh) ∧
    (∀ m d y : ℕ, 1 ≤ m → m ≤ 12 → 1 ≤ d → d ≤ daysInMonth y m → 1 ≤ y → y ≤ 9999 →
      check_date (pad2 m ++ pad2 d ++ pad4 y) = true) := by
  constructor
  · intro sh r line h
    unfold update_date_record
    rw [if_neg (by simp [h])]
  · exact check_date_canonical

theorem C7_date_gate_amended_witness :
    update_date_record [] ⟨"C1".data, "C1 13322021".data, "13322021".data, [100]⟩
      ("C1".data, "90001".data, "13322021".data, "100".data) = .ok [] ∧
    check_date (pad2 1 ++ pad2 15 ++ pad4 2021) = true :=
  ⟨C7_date_gate_amended.1 [] _ _ (by decide),
   C7_date_gate_amended.2 1 15 2021 (by norm_num) (by norm_num) (by norm_num)
     (by norm_num [daysInMonth]) (by norm_num) (by norm_num)⟩

theorem dictGet_dictPut_self (store : List (Str × α)) (k : Str) (v : α) :
    dictGet (dictPut store k v) k = some v := by
  induction store with
  | nil => simp [dictGet, dictPut]
  | cons e rest ih =>
    by_cases h : e.1 = k
    · simp [dictGet, dictPut, h]
    · simp [dictGet, dictPut, h, ih]

/-- C8: the two grouping gates are independent.  For a normalizable
transaction with a five-character zip but a date failing `check_date`, the
zip store is updated (create-or-append under `ID + ' ' + zip`) and exactly
one zip-report line is emitted while the date store is untouched;
symmetrically, with a short zip and a passing date only the date store is
updated and no zip line is emitted. -/
theorem C8_grouping_gates_independent :
    (∀ (sh : Shelve) (line : Str × Str × Str × Str) (n : ℕ),
      string_to_int line.2.2.2 = some n →
      check_zipcode line.2.1 = true →
      check_date line.2.2.1 = false →
      ∃ (sh' : Shelve) (zl : ZipLine),
        Shelve.call sh line = .ok (sh', [zl]) ∧
        sh'.date_shelve = sh.date_shelve ∧
        ∃ r' : ZipRecord,
          dictGet sh'.zip_shelve (line.1 ++ ' ' :: line.2.1) = some r' ∧
          ((dictGet sh.zip_shelve (line.1 ++ ' ' :: line.2.1) = none ∧ r'.amount = [n]) ∨
           (∃ r0, dictGet sh.zip_shelve (line.1 ++ ' ' :: line.2.1) = some r0 ∧
             r'.amount = r0.amount ++ [n]))) ∧
    (∀ (sh : Shelve) (line : Str × Str × Str × Str) (n : ℕ),
      string_to_int line.2.2.2 = some n →
      check_zipcode line.2.1 = false →
      check_date line.2.2.1 = true →
      ∃ sh' : Shelve,
        Shelve.call sh line = .ok (sh', []) ∧
        sh'.zip_shelve = sh.zip_shelve ∧
        ∃ r' : DateRecord,
          dictGet sh'.date_shelve (line.1 ++ ' ' :: line.2.2.1) = some r' ∧
          ((dictGet sh.date_shelve (line.1 ++ ' ' :: line.2.2.1) = none ∧ r'.amount = [n]) ∨
           (∃ r0, dictGet sh.date_shelve (line.1 ++ ' ' :: line.2.2.1) = some r0 ∧
             r'.amount = r0.amount ++ [n]))) := by
  constructor
  · intro sh line n hn hz hd
    obtain ⟨id, zp, dt, amt⟩ := line
    have hzr : ZipRecord.init (id, zp, dt, amt) = some ⟨zp, id, id ++ ' ' :: zp, [n]⟩ := by
      simp [ZipRecord.init, hn]
    have hdr : DateRecord.init (id, zp, dt, amt) =
        some ⟨id, id ++ ' ' :: dt, dt, [n]⟩ := by
      simp [DateRecord.init, hn]
    have hdate : update_date_record sh.date_shelve ⟨id, id ++ ' ' :: dt, dt, [n]⟩
        (id, zp, dt, amt) = .ok sh.date_shelve := by
      unfold update_date_record
      rw [if_neg (by simp [hd])]
    unfold Shelve.call
    rw [hzr, hdr]
    dsimp only
    unfold update_zip_record
    rw [if_pos hz]
    dsimp only
    cases hget : dictGet sh.zip_shelve (id ++ ' ' :: zp) with
    | none =>
      dsimp only
      rw [hdate]
      dsimp only
      split
      · exact ⟨_, _, rfl, rfl,
          ⟨⟨zp, id, id ++ ' ' :: zp, [n]⟩, dictGet_dictPut_self _ _ _,
            Or.inl ⟨rfl, rfl⟩⟩⟩
      · exact ⟨_, _, rfl, rfl,
          ⟨⟨zp, id, id ++ ' ' :: zp, [n]⟩, dictGet_dictPut_self _ _ _,
            Or.inl ⟨rfl, rfl⟩⟩⟩
    | some r0 =>
      dsimp only
      rw [hn]
      dsimp only
      rw [hdate]
      dsimp only
      split
      · exact ⟨_, _, rfl, rfl,
          ⟨⟨r0.zipcode, r0.ID, r0.key, r0.amount ++ [n]⟩, dictGet_dictPut_self _ _ _,
            Or.inr ⟨r0, rfl, rfl⟩⟩⟩
      · exact ⟨_, _, rfl, rfl,
          ⟨⟨r0.zipcode, r0.ID, r0.key, r0.amount ++ [n]⟩, dictGet_dictPut_self _ _ _,
            Or.inr ⟨r0, rfl, rfl⟩⟩⟩
  · intro sh line n hn hz hd
    obtain ⟨id, zp, dt, amt⟩ := line
    have hzr : ZipRecord.init (id, zp, dt, amt) = some ⟨zp, id, id ++ ' ' :: zp, [n]⟩ := by
      simp [ZipRecord.init, hn]
    have hdr : DateRecord.init (id, zp, dt, amt) =
        some ⟨id, id ++ ' ' :: dt, dt, [n]⟩ := by
      simp [DateRecord.init, hn]
    have hzip : update_zip_record sh.zip_shelve ⟨zp, id, id ++ ' ' :: zp, [n]⟩
        (id, zp, dt, amt) = .ok (sh.zip_shelve, []) := by
      unfold update_zip_record
      rw [if_neg (by simp [hz])]
    unfold Shelve.call
    rw [hzr, hdr]
    dsimp only
    rw [hzip]
    dsimp only
    unfold update_date_record
    rw [if_pos hd]
    dsimp only
    cases hget : dictGet sh.date_shelve (id ++ ' ' :: dt) with
    | none =>
      dsimp only
      split
      · exact ⟨_, rfl, rfl,
          ⟨⟨id, id ++ ' ' :: dt, dt, [n]⟩, dictGet_dictPut_self _ _ _,
            Or.inl ⟨rfl, rfl⟩⟩⟩
      · exact ⟨_, rfl, rfl,
          ⟨⟨id, id ++ ' ' :: dt, dt, [n]⟩, dictGet_dictPut_self _ _ _,
            Or.inl ⟨rfl, rfl⟩⟩⟩
    | some r0 =>
      dsimp only
      rw [hn]
      dsimp only
      split
      · exact ⟨_, rfl, rfl,
          ⟨⟨r0.ID, r0.key, r0.date, r0.amount ++ [n]⟩, dictGet_dictPut_self _ _ _,
            Or.inr ⟨r0, rfl, rfl⟩⟩⟩
      · exact ⟨_, rfl, rfl,
          ⟨⟨r0.ID, r0.key, r0.date, r0.amount ++ [n]⟩, dictGet_dictPut_self _ _ _,
            Or.inr ⟨r0, rfl, rfl⟩⟩⟩

theorem C8_grouping_gates_independent_witness :
    (∃ (sh' : Shelve) (zl : ZipLine),
      Shelve.call initShelve ("C1".data, "90001".data, "13322021".data, "100".data) =
        .ok (sh', [zl]) ∧
      sh'.date_shelve = initShelve.date_shelve ∧
      ∃ r' : ZipRecord,
        dictGet sh'.zip_shelve ("C1".data ++ ' ' :: "90001".data) = some r' ∧
        ((dictGet initShelve.zip_shelve ("C1".data ++ ' ' :: "90001".data) = none ∧
            r'.amount = [100]) ∨
         (∃ r0, dictGet initShelve.zip_shelve ("C1".data ++ ' ' :: "90001".data) = some r0 ∧
            r'.amount = r0.amount ++ [100]))) ∧
    (∃ sh' : Shelve,
      Shelve.call initShelve ("C1".data, "9001".data, "01152021".data, "100".data) =
        .ok (sh', []) ∧
      sh'.zip_shelve = initShelve.zip_shelve ∧
      ∃ r' : DateRecord,
        dictGet sh'.date_shelve ("C1".data ++ ' ' :: "01152021".data) = some r' ∧
        ((dictGet initShelve.date_shelve ("C1".data ++ ' ' :: "01152021".data) = none ∧
            r'.amount = [100]) ∨
         (∃ r0, dictGet initShelve.date_shelve ("C1".data ++ ' ' :: "01152021".data) = some r0 ∧
            r'.amount = r0.amount ++ [100]))) :=
  ⟨C8_grouping_gates_independent.1 initShelve _ 100 (by decide) (by decide) (by decide),
   C8_grouping_gates_independent.2 initShelve _ 100 (by decide) (by decide) (by decide)⟩

theorem pySplitChar_ne_nil (sep : Char) (l : Str) : pySplitChar sep l ≠ [] := by
  cases l with
  | nil => simp [pySplitChar]
  | cons c rest =>
    cases hr : pySplitChar sep rest with
    | nil => simp [pySplitChar, hr]
    | cons h t =>
      simp only [pySplitChar, hr]
      split <;> simp

theorem pySplitChar_length (sep : Char) (l : Str) :
    (pySplitChar sep l).length = l.count sep + 1 := by
  induction l with
  | nil => simp [pySplitChar]
  | cons c rest ih =>
    cases hr : pySplitChar sep rest with
    | nil => exact absurd hr (pySplitChar_ne_nil sep rest)
    | cons h t =>
      rw [hr] at ih
      by_cases hc : c = sep
      · subst hc
        simp [pySplitChar, hr, List.count_cons] at ih ⊢
        omega
      · simp [pySplitChar, hr, List.count_cons, hc] at ih ⊢
        omega

theorem pySplitChar_not_mem {sep : Char} {l : Str} (h : sep ∉ l) :
    pySplitChar sep l = [l] := by
  induction l with
  | nil => rfl
  | cons c rest ih =>
    have hc : c ≠ sep := by
      rintro rfl
      exact h (List.mem_cons_self _ _)
    have hrest : sep ∉ rest := fun hm => h (List.mem_cons_of_mem _ hm)
    simp [pySplitChar, ih hrest, hc]

theorem pySplitChar_append {sep : Char} {i : Str} (d : Str) (hi : sep ∉ i) :
    pySplitChar sep (i ++ sep :: d) = i :: pySplitChar sep d := by
  induction i with
  | nil =>
    simp only [List.nil_append]
    cases hr : pySplitChar sep d with
    | nil => exact absurd hr (pySplitChar_ne_nil sep d)
    | cons h t => simp [pySplitChar, hr]
  | cons c irest ih =>
    have hc : c ≠ sep := by
      rintro rfl
      exact hi (List.mem_cons_self _ _)
    have hrest : sep ∉ irest := fun hm => hi (List.mem_cons_of_mem _ hm)
    simp [List.cons_append, pySplitChar, ih hrest, hc]

theorem splitKey_pair {i d : Str} {mdy : ℕ × ℕ × ℕ} (hi : ' ' ∉ i) (hd : ' ' ∉ d)
    (hp : pyStrptime d = some mdy) : splitKey (i ++ ' ' :: d) = .ok (i, mdy) := by
  unfold splitKey
  rw [pySplitChar_append d hi, pySplitChar_not_mem hd]
  dsimp only
  rw [hp]

theorem splitKey_err {k : Str} (h : (pySplitChar ' ' k).length ≠ 2) :
    splitKey k = .error () := by
  unfold splitKey
  cases hs : pySplitChar ' ' k with
  | nil => rfl
  | cons a t1 =>
    cases t1 with
    | nil => rfl
    | cons b t2 =>
      cases t2 with
      | nil =>
        rw [hs] at h
        simp at h
      | cons c t3 => rfl

theorem eMapM_map_ok (f : β → Except Unit γ) (r : α → β) (g : α → γ)
    (L : List α) (hall : ∀ a ∈ L, f (r a) = .ok (g a)) :
    eMapM f (L.map r) = .ok (L.map g) := by
  induction L with
  | nil => rfl
  | cons a as ih =>
    simp only [List.map_cons, eMapM]
    rw [hall a (List.mem_cons_self a as),
      ih (fun x hx => hall x (List.mem_cons_of_mem a hx))]

theorem eMapM_err_of_mem (f : α → Except Unit β) {L : List α} {a : α}
    (ha : a ∈ L) (hf : f a = .error ()) : eMapM f L = .error () := by
  induction L with
  | nil => exact absurd ha (List.not_mem_nil a)
  | cons b bs ih =>
    rcases List.mem_cons.mp ha with rfl | hmem
    · simp only [eMapM]
      rw [hf]
    · simp only [eMapM]
      cases hfb : f b with
      | error e =>
        cases e
        rfl
      | ok v => rw [ih hmem]

theorem dictGet_of_mem :
    ∀ (store : List (Str × α)) (k : Str) (v : α),
      (store.map Prod.fst).Pairwise (· ≠ ·) → (k, v) ∈ store → dictGet store k = some v := by
  intro store
  induction store with
  | nil =>
    intro k v _ hmem
    exact absurd hmem (List.not_mem_nil _)
  | cons e rest ih =>
    intro k v hkeys hmem
    rw [List.map_cons] at hkeys
    obtain ⟨hhead, htail⟩ := List.pairwise_cons.mp hkeys
    rcases List.mem_cons.mp hmem with he | hmem'
    · subst he
      simp [dictGet]
    · have hk : e.1 ≠ k := hhead k (List.mem_map.mpr ⟨(k, v), hmem', rfl⟩)
      simp only [dictGet, if_neg hk]
      exact ih k v htail hmem'

theorem write_date_ok (store : List (Str × DateRecord))
    (hkeys : (store.map Prod.fst).Pairwise (· ≠ ·))
    (hent : ∀ e ∈ store, e.1 = e.2.ID ++ ' ' :: e.2.date ∧ ' ' ∉ e.2.ID ∧ ' ' ∉ e.2.date ∧
      ∃ mdy, pyStrptime e.2.date = some mdy ∧ date_to_string mdy = e.2.date) :
    ∃ ls, write_date store = .ok ls ∧
      ls.Perm (store.map (fun e => dateLineOf e.2)) ∧ ls.Pairwise dateLineLE := by
  have hsplit : ∀ e ∈ store, splitKey e.1 = .ok (entryPair e) := by
    intro e he
    obtain ⟨hkey, hid, hd, mdy, hp, hr⟩ := hent e he
    have h1 : splitKey e.1 = .ok (e.2.ID, mdy) := by
      rw [hkey]
      exact splitKey_pair hid hd hp
    rw [h1]
    unfold entryPair
    rw [hp, Option.getD_some]
  have hreconAll : ∀ e ∈ store, reconKey (entryPair e) = e.1 := by
    intro e he
    obtain ⟨hkey, hid, hd, mdy, hp, hr⟩ := hent e he
    unfold reconKey entryPair
    dsimp only
    rw [hp, Option.getD_some, hr, ← hkey]
  have hmapm : eMapM splitKey (store.map (fun e => e.1)) = .ok (store.map entryPair) :=
    eMapM_map_ok splitKey (fun e => e.1) entryPair store hsplit
  have hgetAll : ∀ e ∈ store, dictGet store (reconKey (entryPair e)) = some e.2 := by
    intro e he
    rw [hreconAll e he]
    exact dictGet_of_mem store e.1 e.2 hkeys he
  set sorted := List.insertionSort keyPairLE (store.map entryPair) with hsorteddef
  have hperm : sorted.Perm (store.map entryPair) := List.perm_insertionSort _ _
  have hsorted : sorted.Pairwise keyPairLE := List.sorted_insertionSort _ _
  have hfacts : ∀ p ∈ sorted, ∃ e ∈ store, p = entryPair e := by
    intro p hp
    obtain ⟨e, he, hpe⟩ := List.mem_map.mp (hperm.mem_iff.mp hp)
    exact ⟨e, he, hpe.symm⟩
  have hlookAll : ∀ p ∈ sorted, lookupLine store (reconKey p) = .ok (lineAt store p) := by
    intro p hp
    obtain ⟨e, he, hpe⟩ := hfacts p hp
    subst hpe
    unfold lookupLine lineAt
    rw [hgetAll e he]
  have hok : eMapM (lookupLine store) (sorted.map reconKey) = .ok (sorted.map (lineAt store)) :=
    eMapM_map_ok (lookupLine store) reconKey (lineAt store) sorted hlookAll
  refine ⟨sorted.map (lineAt store), ?_, ?_, ?_⟩
  · unfold write_date sort_key_by_date
    rw [hmapm]
    dsimp only
    rw [← hsorteddef]
    exact hok
  · refine (hperm.map (lineAt store)).trans ?_
    rw [List.map_map]
    have hmc : store.map ((lineAt store) ∘ entryPair) = store.map (fun e => dateLineOf e.2) := by
      apply List.map_congr_left
      intro e he
      simp only [Function.comp]
      unfold lineAt
      rw [hgetAll e he]
    rw [hmc]
  · rw [List.pairwise_map]
    apply List.Pairwise.imp_of_mem ?_ hsorted
    intro a b ha hb hab
    obtain ⟨e1, he1, hpe1⟩ := hfacts a ha
    obtain ⟨e2, he2, hpe2⟩ := hfacts b hb
    subst hpe1
    subst hpe2
    have hl1 : lineAt store (entryPair e1) = dateLineOf e1.2 := by
      unfold lineAt
      rw [hgetAll e1 he1]
    have hl2 : lineAt store (entryPair e2) = dateLineOf e2.2 := by
      unfold lineAt
      rw [hgetAll e2 he2]
    rw [hl1, hl2]
    obtain ⟨-, -, -, mdy1, hp1, -⟩ := hent e1 he1
    obtain ⟨-, -, -, mdy2, hp2, -⟩ := hent e2 he2
    unfold keyPairLE entryPair at hab
    dsimp only at hab
    rw [hp1, hp2, Option.getD_some, Option.getD_some] at hab
    unfold dateLineLE dlVal dateLineOf
    dsimp only
    rw [hp1, hp2]
    simpa [Option.elim] using hab

/-- C5 counterexample: the date `"1152021"` passes the `check_date` gate
(strptime reads it as November 5, 2021), so the store below is reachable; but
`sort_key_by_date` rebuilds its key as `"C1 11052021"`, the store lookup in
`write_date` then raises `KeyError`, and no report line is produced for the
key — refuting "exactly one line per (recipient_id, date) key". -/
theorem C5_date_report_counterexample :
    check_date "1152021".data = true ∧
    write_date [("C1 1152021".data,
      ⟨"C1".data, "C1 1152021".data, "1152021".data, [100]⟩)] = .error () := by
  constructor
  · decide
  · decide

/-- C5 amended: the date report is a single bulk write after the stream is
exhausted, and — provided every stored key is `ID + ' ' + date` with a
space-free id and a date that parse-then-format reproduces verbatim (true of
all canonical `MMDDYYYY` dates with year ≥ 1000, but not of every
gate-passing date, see the counterexample) — it contains exactly one line
per (recipient_id, date) key, sorted ascending primarily by recipient id in
lexicographic string order and secondarily by the date compared as a parsed
calendar value. -/
theorem C5_date_report_amended :
    (∀ store : List (Str × DateRecord),
      (store.map Prod.fst).Pairwise (· ≠ ·) →
      (∀ e ∈ store, e.1 = e.2.ID ++ ' ' :: e.2.date ∧ ' ' ∉ e.2.ID ∧ ' ' ∉ e.2.date ∧
        ∃ mdy, pyStrptime e.2.date = some mdy ∧ date_to_string mdy = e.2.date) →
      ∃ ls, write_date store = .ok ls ∧
        ls.Perm (store.map (fun e => dateLineOf e.2)) ∧ ls.Pairwise dateLineLE) ∧
    (∀ (lines : List Str) (zls : List ZipLine) (sh : Shelve) (ls : List DateLine),
      runLoop initShelve (read_line lines) = (zls, some sh) →
      write_date sh.date_shelve = .ok ls →
      runMain false false lines = ⟨zls, some ls, false⟩) := by
  constructor
  · exact write_date_ok
  · intro lines zls sh ls hloop hwd
    unfold runMain
    rw [if_neg (by simp)]
    dsimp only
    rw [hloop]
    dsimp only
    rw [hwd]

theorem C5_date_report_amended_witness :
    (∃ ls, write_date [("C1 01152021".data,
        ⟨"C1".data, "C1 01152021".data, "01152021".data, [100]⟩)] = .ok ls ∧
      ls.Perm ([("C1 01152021".data,
        (⟨"C1".data, "C1 01152021".data, "01152021".data, [100]⟩ : DateRecord))].map
          (fun e => dateLineOf e.2)) ∧
      ls.Pairwise dateLineLE) ∧
    runMain false false [] = ⟨[], some [], false⟩ :=
  ⟨C5_date_report_amended.1 _ (by simp)
    (by
      intro e he
      simp only [List.mem_singleton] at he
      subst he
      exact ⟨by decide, by decide, by decide, (1, 15, 2021), by decide, by decide⟩),
   C5_date_report_amended.2 [] [] initShelve [] (by rfl) (by rfl)⟩

/-- C10 counterexample: a store whose only recipient id (`"C2"`) contains no
space, yet `write_date` fails instead of producing the report: the stored
date `"112021"` passed the gate but does not round-trip through
parse-then-format, so the rebuilt key (`"C2 01012022"`-style) misses the
store and raises `KeyError` — refuting "for every store whose recipient ids
contain no space ... the report is produced". -/
theorem C10_key_split_counterexample :
    (∀ e ∈ [("C2 112021".data,
        (⟨"C2".data, "C2 112021".data, "112021".data, [50]⟩ : DateRecord))],
      ' ' ∉ e.2.ID) ∧
    check_date "112021".data = true ∧
    write_date [("C2 112021".data,
      ⟨"C2".data, "C2 112021".data, "112021".data, [50]⟩)] = .error () := by
  refine ⟨by decide, by decide, by decide⟩

/-- C10 amended: `sort_key_by_date` recovers `(recipient_id, date)` by
splitting each key on every space into exactly two pieces, so a key whose
recipient id contains a space makes `write_date` fail; with space-free ids
the split succeeds, but the report is actually produced only if additionally
every stored date survives parse-then-format verbatim (a gate-passing date
such as `"112021"` does not, see the counterexample). -/
theorem C10_key_split_amended :
    (∀ store : List (Str × DateRecord),
      (store.map Prod.fst).Pairwise (· ≠ ·) →
      (∀ e ∈ store, e.1 = e.2.ID ++ ' ' :: e.2.date ∧ ' ' ∉ e.2.ID ∧ ' ' ∉ e.2.date ∧
        ∃ mdy, pyStrptime e.2.date = some mdy ∧ date_to_string mdy = e.2.date) →
      ∃ ls, write_date store = .ok ls) ∧
    (∀ (store : List (Str × DateRecord)) (id d : Str) (r : DateRecord),
      ' ' ∈ id → (id ++ ' ' :: d, r) ∈ store → write_date store = .error ()) := by
  constructor
  · intro store h1 h2
    obtain ⟨ls, hok, -, -⟩ := write_date_ok store h1 h2
    exact ⟨ls, hok⟩
  · intro store id d r hsp hmem
    have hcount : 2 ≤ (id ++ ' ' :: d).count ' ' := by
      rw [List.count_append]
      have h1 : 0 < id.count ' ' := List.count_pos_iff.mpr hsp
      have h2 : (' ' :: d).count ' ' = d.count ' ' + 1 := by
        simp [List.count_cons]
      omega
    have hkerr : splitKey (id ++ ' ' :: d) = .error () := by
      apply splitKey_err
      rw [pySplitChar_length]
      omega
    have hkeymem : (id ++ ' ' :: d) ∈ store.map (fun e => e.1) :=
      List.mem_map.mpr ⟨(id ++ ' ' :: d, r), hmem, rfl⟩
    unfold write_date sort_key_by_date
    rw [eMapM_err_of_mem splitKey hkeymem hkerr]

theorem C10_key_split_amended_witness :
    (∃ ls, write_date [("C3 01012022".data,
      (⟨"C3".data, "C3 01012022".data, "01012022".data, [7]⟩ : DateRecord))] = .ok ls) ∧
    write_date [("C 1 01012022".data,
      (⟨"C 1".data, "C 1 01012022".data, "01012022".data, [7]⟩ : DateRecord))] =
      .error () :=
  ⟨C10_key_split_amended.1 _ (by simp)
    (by
      intro e he
      simp only [List.mem_singleton] at he
      subst he
      exact ⟨by decide, by decide, by decide, (1, 1, 2022), by decide, by decide⟩),
   C10_key_split_amended.2 _ "C 1".data "01012022".data
     ⟨"C 1".data, "C 1 01012022".data, "01012022".data, [7]⟩ (by decide) (by decide)⟩
